import Mathlib

/-!
Formal model of the `inquirer-snippet` prompt (src/src/index.ts).

Strings are modelled as `List Char`.  JavaScript string truthiness
(`if (s)`) is emptiness testing; `x || ""` on strings is the identity on
non-empty strings and maps both `undefined` and `""` to `""`.

The prompt state machine lives in `userHandler`; each keypress maps the
current state and the readline buffer contents to a new state.  The
`done(values)` resolution of the promise is modelled by the `result`
field of the state.
-/

namespace Snippet

abbrev Str := List Char

/-- Key events as decoded by the inquirer runtime: a key name plus a ctrl
modifier flag. -/
structure KeyEvent where
  name : Str
  ctrl : Bool
deriving DecidableEq

/-- Key classifier from the inquirer runtime: the enter key reports name
`enter` or `return`. -/
def isEnterKey (k : KeyEvent) : Bool :=
  k.name == ("enter".toList) || k.name == ("return".toList)

/-- Key classifier from the inquirer runtime: the up-arrow key. -/
def isUpKey (k : KeyEvent) : Bool :=
  k.name == ("up".toList)

/-- Key classifier from the inquirer runtime: the down-arrow key. -/
def isDownKey (k : KeyEvent) : Bool :=
  k.name == ("down".toList)

/-- A normalized select option: display name plus stored value. -/
structure SelectOption where
  name : Str
  value : Str
deriving DecidableEq

/-- A raw entry of a field's `options` list: either a bare string or an
explicit name/value pair. -/
inductive RawOption where
  | bare : Str → RawOption
  | pair : Str → Str → RawOption
deriving DecidableEq

/-- A field descriptor (`SnippetField` in src/types): optional display
message, optional initial value, optional required flag, optional option
list. -/
structure SnippetField where
  message : Option Str := none
  initial : Option Str := none
  required : Option Bool := none
  options : Option (List RawOption) := none
deriving DecidableEq

/-- The value map: field name to current string value.  Models the JS
object `values`; lookups of absent keys give the empty string. -/
abbrev ValueMap := List (Str × Str)

/-- The three-shape result of the validation callback: a boolean or a
string message. -/
inductive ValidationResult where
  | bool : Bool → ValidationResult
  | str : Str → ValidationResult
deriving DecidableEq

/-- Prompt configuration: message, template, ordered field list (in
`Object.keys(config.fields)` order) and optional validation callback. -/
structure SnippetConfig where
  message : Str
  template : Str
  fields : List (Str × SnippetField)
  validate : Option (ValueMap → ValidationResult) := none

/-- `values[name] || ""`: look a field up in the value map, defaulting to
the empty string. -/
def getValue (m : ValueMap) (k : Str) : Str :=
  match m.find? (fun p => p.1 == k) with
  | some p => p.2
  | none => []

/-- `{...values, [k]: v}`: replace the binding of `k` in place, or append
it when absent. -/
def setValue (m : ValueMap) (k v : Str) : ValueMap :=
  match m with
  | [] => [(k, v)]
  | (k1, v1) :: rest => if k1 == k then (k, v) :: rest else (k1, v1) :: setValue rest k v

/-- `fieldNames = Object.keys(config.fields)`. -/
def fieldNames (cfg : SnippetConfig) : List Str :=
  cfg.fields.map (fun p => p.1)

/-- `config.fields[name]`. -/
def findField (cfg : SnippetConfig) (name : Str) : Option SnippetField :=
  (cfg.fields.find? (fun p => p.1 == name)).map (fun p => p.2)

/-- `field?.options || []`. -/
def fieldOptions (cfg : SnippetConfig) (name : Str) : List RawOption :=
  ((findField cfg name).bind (fun f => f.options)).getD []

/-- `normalizeOptions`: bare strings become identical name/value pairs. -/
def normalizeOptions (options : List RawOption) : List SelectOption :=
  options.map (fun o =>
    match o with
    | .bare s => { name := s, value := s }
    | .pair n v => { name := n, value := v })

/-- `isSelectField`: `!!(field?.options && field.options.length > 0)`. -/
def isSelectField (cfg : SnippetConfig) (name : Str) : Bool :=
  match findField cfg name with
  | some f =>
    match f.options with
    | some opts => decide (0 < opts.length)
    | none => false
  | none => false

/-- The prompt status, as in inquirer core. -/
inductive Status where
  | idle
  | loading
  | done
deriving DecidableEq

/-- The full mutable state held by the prompt's `useState` cells, plus
`result` modelling resolution of the returned promise via `done(values)`. -/
structure PromptState where
  status : Status
  errorMsg : Option Str
  values : ValueMap
  activeFieldIndex : Nat
  editingField : Option Str
  fieldInput : Str
  cursorPosition : Nat
  selectingField : Option Str
  selectedOptionIndex : Nat
  result : Option ValueMap
deriving DecidableEq

/-- Initial values: `config.fields[name]?.initial || ""` for each declared
field, in declaration order. -/
def initialValues (cfg : SnippetConfig) : ValueMap :=
  cfg.fields.map (fun p => (p.1, p.2.initial.getD []))

/-- The state at prompt start. -/
def initialState (cfg : SnippetConfig) : PromptState :=
  { status := .idle
    errorMsg := none
    values := initialValues cfg
    activeFieldIndex := 0
    editingField := none
    fieldInput := []
    cursorPosition := 0
    selectingField := none
    selectedOptionIndex := 0
    result := none }

/-- `validate?.(values) ?? true`. -/
def runValidate (cfg : SnippetConfig) (values : ValueMap) : ValidationResult :=
  match cfg.validate with
  | some v => v values
  | none => .bool true

/-- The generic fallback error text used when the validator returns a
non-string falsy result. -/
def invalidValuesMsg : Str := "Invalid values provided".toList

/-- The keypress handler `userHandler` of src/src/index.ts.  `rlLine` is
the content of the readline buffer as observed by the handler after the
runtime processed the keystroke (read only in the text-editing delegation
branch).  Indices are naturals: the arithmetic (`max(0, i-1)` as truncated
subtraction, `min`, `mod`) agrees with the source's JS number arithmetic
on every state with at least one field / option, which all reachable
states of interest satisfy. -/
def userHandler (cfg : SnippetConfig) (s : PromptState) (key : KeyEvent) (rlLine : Str) :
    PromptState :=
  match s.selectingField with
  | some selField =>
    let options := normalizeOptions (fieldOptions cfg selField)
    if isEnterKey key then
      let s1 :=
        match options[s.selectedOptionIndex]? with
        | some selectedOption => { s with values := setValue s.values selField selectedOption.value }
        | none => s
      { s1 with selectingField := none, selectedOptionIndex := 0 }
    else if key.name == ("escape".toList) then
      { s with selectingField := none, selectedOptionIndex := 0 }
    else if isUpKey key then
      { s with selectedOptionIndex := s.selectedOptionIndex - 1 }
    else if isDownKey key then
      { s with selectedOptionIndex := min (options.length - 1) (s.selectedOptionIndex + 1) }
    else s
  | none =>
    match s.editingField with
    | some editField =>
      if isEnterKey key then
        { s with values := setValue s.values editField s.fieldInput
                 editingField := none
                 fieldInput := []
                 cursorPosition := 0 }
      else if key.name == ("escape".toList) then
        { s with editingField := none, fieldInput := [], cursorPosition := 0 }
      else
        { s with fieldInput := rlLine, cursorPosition := rlLine.length }
    | none =>
      if key.ctrl && key.name == ("s".toList) then
        let isValid := runValidate cfg s.values
        if isValid = .bool true then
          { s with status := .done, result := some s.values }
        else
          { s with status := .idle
                   errorMsg := some (match isValid with
                     | .str m => m
                     | .bool _ => invalidValuesMsg) }
      else if isEnterKey key then
        match (fieldNames cfg)[s.activeFieldIndex]? with
        | some fieldName =>
          if fieldName.isEmpty then s
          else if isSelectField cfg fieldName then
            let options := normalizeOptions (fieldOptions cfg fieldName)
            let currentValue := getValue s.values fieldName
            let currentIndex := options.findIdx? (fun opt => opt.value == currentValue)
            { s with selectingField := some fieldName
                     selectedOptionIndex := currentIndex.getD 0 }
          else
            let currentValue := getValue s.values fieldName
            { s with editingField := some fieldName
                     fieldInput := currentValue
                     cursorPosition := currentValue.length }
        | none => s
      else if isUpKey key then
        { s with activeFieldIndex := s.activeFieldIndex - 1 }
      else if isDownKey key then
        { s with activeFieldIndex := min ((fieldNames cfg).length - 1) (s.activeFieldIndex + 1) }
      else if key.name == ("tab".toList) then
        { s with activeFieldIndex := (s.activeFieldIndex + 1) % (fieldNames cfg).length }
      else s

/-- Run a list of key events (each with the readline buffer contents it
observes) from a given state. -/
def runFrom (cfg : SnippetConfig) (s : PromptState) (evs : List (KeyEvent × Str)) :
    PromptState :=
  evs.foldl (fun st e => userHandler cfg st e.1 e.2) s

/-- Run a list of key events from the prompt's initial state. -/
def runKeys (cfg : SnippetConfig) (evs : List (KeyEvent × Str)) : PromptState :=
  runFrom cfg (initialState cfg) evs

/-! ## The template renderer

Line 225 of the source builds `new RegExp(escaped, "g")` where `escaped`
is the placeholder token with every regular-expression metacharacter
(`. * + ? ^ $ ( ) | [ ] \` and braces) backslash-escaped.  A fully
escaped pattern matches exactly the literal token, so the substitution is
global (non-overlapping, left to right) literal search for the token.
The replacement string, however, is subject to the JavaScript
`String.prototype.replace` dollar-pattern expansion, which `processRepl`
models: with a pattern that has no capture groups, the recognized forms
are a doubled dollar (a literal dollar), dollar-ampersand (the matched
text), dollar-backquote (the text before the match) and dollar-quote (the
text after the match); a dollar followed by anything else is literal. -/

/-- Dollar sign. -/
def dollarChar : Char := Char.ofNat 36

/-- Backquote. -/
def backquoteChar : Char := Char.ofNat 96

/-- Single quote. -/
def quoteChar : Char := Char.ofNat 39

/-- JavaScript replacement-string expansion (ECMAScript GetSubstitution)
for a groupless pattern.  `matched` is the matched text, `before` the
part of the subject before the match, `after` the part after it. -/
def processRepl (matched before after : Str) : Str → Str
  | [] => []
  | [c] => [c]
  | c :: d :: rest =>
    if c = dollarChar then
      if d = dollarChar then dollarChar :: processRepl matched before after rest
      else if d = Char.ofNat 38 then matched ++ processRepl matched before after rest
      else if d = backquoteChar then before ++ processRepl matched before after rest
      else if d = quoteChar then after ++ processRepl matched before after rest
      else c :: processRepl matched before after (d :: rest)
    else c :: processRepl matched before after (d :: rest)

/-- Global literal replacement with JS dollar-expansion of the
replacement, fuelled by the length of the subject (one unit of fuel per
character examined, so the subject's length always suffices).
`revBefore` is the already-scanned prefix of the original subject, in
reverse. -/
def jsReplaceAux (pat repl : Str) : Nat → Str → Str → Str
  | 0, _, _ => []
  | _ + 1, _, [] => []
  | fuel + 1, revBefore, c :: rest =>
    if pat ≠ [] ∧ pat.isPrefixOf (c :: rest) then
      processRepl pat revBefore.reverse ((c :: rest).drop pat.length) repl ++
        jsReplaceAux pat repl fuel (pat.reverse ++ revBefore) ((c :: rest).drop pat.length)
    else
      c :: jsReplaceAux pat repl fuel (c :: revBefore) rest

/-- `s.replace(new RegExp(escapeRegExp(pat), "g"), repl)`. -/
def jsReplace (s pat repl : Str) : Str :=
  jsReplaceAux pat repl s.length [] s

/-- The placeholder token of a field: its name wrapped in double braces. -/
def placeholderToken (fieldName : Str) : Str :=
  ("\x7b\x7b".toList) ++ fieldName ++ ("\x7d\x7d".toList)

/-- The four style functions of the snippet theme. -/
structure ThemeStyle where
  field : Str → Str
  activeField : Str → Str
  placeholder : Str → Str
  activePlaceholder : Str → Str

/-- The default snippet theme (lines 19-27 of the source): identity for
plain fields, inverse video for the active field, dim for placeholders,
inverse video plus dim for the active placeholder. -/
def snippetTheme : ThemeStyle :=
  { field := fun text => text
    activeField := fun text => ("\x1b[7m".toList) ++ text ++ ("\x1b[27m".toList)
    placeholder := fun text => ("\x1b[2m".toList) ++ text ++ ("\x1b[22m".toList)
    activePlaceholder := fun text =>
      ("\x1b[7m\x1b[2m".toList) ++ text ++ ("\x1b[22m\x1b[27m".toList) }

/-- The display fragment computed for one field inside `renderSnippet`
(the body of the `forEach` of lines 189-226, up to the substitution). -/
def displayValueFor (cfg : SnippetConfig) (theme : ThemeStyle) (s : PromptState)
    (fieldName : Str) (index : Nat) : Str :=
  let field := findField cfg fieldName
  let value := if s.editingField = some fieldName then s.fieldInput else getValue s.values fieldName
  let isActive := index = s.activeFieldIndex ∧ s.editingField = none ∧ s.selectingField = none
  let isSelecting := s.selectingField = some fieldName
  let isEditing := s.editingField = some fieldName
  if value ≠ [] then
    if isEditing then
      let beforeCursor := value.take s.cursorPosition
      let atCursorRaw := (value.drop s.cursorPosition).take 1
      let atCursor := if atCursorRaw = [] then (" ".toList) else atCursorRaw
      let afterCursor := value.drop (s.cursorPosition + 1)
      beforeCursor ++ ("\x1b[7m".toList) ++ atCursor ++ ("\x1b[27m".toList) ++ afterCursor
    else if isSelecting then
      ("\x1b[7m".toList) ++ value ++ ("\x1b[27m".toList)
    else if isActive then theme.activeField value
    else theme.field value
  else
    let placeholderText :=
      match field with
      | some f =>
        match f.message with
        | some m => if m = [] then fieldName else m
        | none => fieldName
      | none => fieldName
    if isEditing then ("\x1b[7m \x1b[27m".toList)
    else if isSelecting then
      ("\x1b[7m\x1b[2m".toList) ++ placeholderText ++ ("\x1b[22m\x1b[27m".toList)
    else if isActive then theme.activePlaceholder placeholderText
    else theme.placeholder placeholderText

/-- `renderSnippet` (lines 186-229): fold over the declared fields in
order, substituting each field's placeholder token in the partially
rendered string. -/
def renderSnippet (cfg : SnippetConfig) (theme : ThemeStyle) (s : PromptState) : Str :=
  ((fieldNames cfg).enum).foldl
    (fun rendered p =>
      jsReplace rendered (placeholderToken p.2) (displayValueFor cfg theme s p.2 p.1))
    cfg.template

/-- The error component of the rendered frame (lines 271-274): empty
unless `errorMsg` is a truthy (non-empty) string, in which case it is the
themed error text.  An empty component is dropped from the frame by
`filter(Boolean)`. -/
def errorComponent (styleError : Str → Str) (errorMsg : Option Str) : Str :=
  match errorMsg with
  | some m => if m = [] then [] else styleError m
  | none => []

/-- Modelled from the spec: plain global literal replacement of every
occurrence of a token, used as the specification-side reference that the
substitution "must replace literal occurrences of the full placeholder
token exactly" (spec section 6); compared against `jsReplace`, the
embedding of the source's substitution step. -/
def literalReplaceAllAux (pat repl : Str) : Nat → Str → Str
  | 0, _ => []
  | _ + 1, [] => []
  | fuel + 1, c :: rest =>
    if pat ≠ [] ∧ pat.isPrefixOf (c :: rest) then
      repl ++ literalReplaceAllAux pat repl fuel ((c :: rest).drop pat.length)
    else
      c :: literalReplaceAllAux pat repl fuel rest

/-- Modelled from the spec: entry point of the reference literal
replacement. -/
def literalReplaceAll (s pat repl : Str) : Str :=
  literalReplaceAllAux pat repl s.length s

/-! ## Step lemmas for the state machine -/

lemma ctrlS_false_of_name_ne {k : KeyEvent} (h : k.name ≠ ("s".toList)) :
    (k.ctrl && (k.name == ("s".toList))) = false := by
  have h2 : (k.name == ("s".toList)) = false := by
    simp only [beq_eq_false_iff_ne, ne_eq]
    exact h
  rw [h2, Bool.and_false]

lemma isEnterKey_false_of_name {k : KeyEvent} (h : k.name ≠ ("enter".toList))
    (h2 : k.name ≠ ("return".toList)) : isEnterKey k = false := by
  simp only [isEnterKey, Bool.or_eq_false_iff, beq_eq_false_iff_ne, ne_eq]
  exact ⟨h, h2⟩

lemma isEnterKey_name {k : KeyEvent} (h : isEnterKey k = true) :
    k.name = ("enter".toList) ∨ k.name = ("return".toList) := by
  simpa only [isEnterKey, Bool.or_eq_true, beq_iff_eq] using h

lemma ctrlS_false_of_enter {k : KeyEvent} (h : isEnterKey k = true) :
    (k.ctrl && (k.name == ("s".toList))) = false := by
  rcases isEnterKey_name h with h1 | h1 <;>
    (apply ctrlS_false_of_name_ne ; rw [h1] ; decide)

/-- In navigating mode, a successful submit resolves the prompt with the
current value map and touches nothing else (in particular `errorMsg`). -/
lemma submit_success_step (cfg : SnippetConfig) (s : PromptState) (k : KeyEvent) (line : Str)
    (hsel : s.selectingField = none) (hed : s.editingField = none)
    (hc : k.ctrl = true) (hn : k.name = ("s".toList))
    (hvalid : runValidate cfg s.values = .bool true) :
    userHandler cfg s k line = { s with status := .done, result := some s.values } := by
  have hcs : (k.ctrl && (k.name == ("s".toList))) = true := by
    rw [hc, hn]
    decide
  simp only [userHandler, hsel, hed, hcs, hvalid, if_true, if_pos rfl]

/-- In navigating mode, a failed submit sets the error message (the
returned string, or the generic fallback when the validator returned a
boolean) and goes back to idle, changing nothing else. -/
lemma submit_fail_step (cfg : SnippetConfig) (s : PromptState) (k : KeyEvent) (line : Str)
    (hsel : s.selectingField = none) (hed : s.editingField = none)
    (hc : k.ctrl = true) (hn : k.name = ("s".toList))
    (hvalid : runValidate cfg s.values ≠ .bool true) :
    userHandler cfg s k line =
      { s with status := .idle
               errorMsg := some (match runValidate cfg s.values with
                 | .str m => m
                 | .bool _ => invalidValuesMsg) } := by
  have hcs : (k.ctrl && (k.name == ("s".toList))) = true := by
    rw [hc, hn]
    decide
  simp only [userHandler, hsel, hed, hcs, if_true, if_neg hvalid]

/-- In navigating mode, Enter on an active text field (non-empty name, no
options) enters editing mode, seeds the edit buffer with the current
value, and changes nothing else. -/
lemma enter_text_step (cfg : SnippetConfig) (s : PromptState) (k : KeyEvent) (line : Str)
    (f : Str) (hsel : s.selectingField = none) (hed : s.editingField = none)
    (hk : isEnterKey k = true) (hf : (fieldNames cfg)[s.activeFieldIndex]? = some f)
    (hne : f ≠ []) (hnotsel : isSelectField cfg f = false) :
    userHandler cfg s k line =
      { s with editingField := some f
               fieldInput := getValue s.values f
               cursorPosition := (getValue s.values f).length } := by
  have hempty : f.isEmpty = false := by
    cases f with
    | nil => exact absurd rfl hne
    | cons c t => rfl
  simp only [userHandler, hsel, hed, ctrlS_false_of_enter hk, hk, hf, hempty, hnotsel,
    Bool.false_eq_true, if_false, if_true]

/-- In navigating mode, Enter on an active select field (non-empty name)
enters option-selection mode, pointing the selection at the first option
whose stored value is the field's current value (or 0 when none
matches), and changes nothing else. -/
lemma enter_select_step (cfg : SnippetConfig) (s : PromptState) (k : KeyEvent) (line : Str)
    (f : Str) (hsel : s.selectingField = none) (hed : s.editingField = none)
    (hk : isEnterKey k = true) (hf : (fieldNames cfg)[s.activeFieldIndex]? = some f)
    (hne : f ≠ []) (hselF : isSelectField cfg f = true) :
    userHandler cfg s k line =
      { s with selectingField := some f
               selectedOptionIndex :=
                 ((normalizeOptions (fieldOptions cfg f)).findIdx?
                   (fun opt => opt.value == getValue s.values f)).getD 0 } := by
  have hempty : f.isEmpty = false := by
    cases f with
    | nil => exact absurd rfl hne
    | cons c t => rfl
  simp only [userHandler, hsel, hed, ctrlS_false_of_enter hk, hk, hf, hempty, hselF,
    Bool.false_eq_true, if_false, if_true]

/-- In navigating mode, the up key clamps the active index downward. -/
lemma up_step (cfg : SnippetConfig) (s : PromptState) (k : KeyEvent) (line : Str)
    (hsel : s.selectingField = none) (hed : s.editingField = none)
    (hk : k.name = ("up".toList)) :
    userHandler cfg s k line = { s with activeFieldIndex := s.activeFieldIndex - 1 } := by
  have h1 : (k.ctrl && (k.name == ("s".toList))) = false := by
    apply ctrlS_false_of_name_ne
    rw [hk]
    decide
  have h2 : isEnterKey k = false := by
    apply isEnterKey_false_of_name <;> (rw [hk] ; decide)
  have h3 : isUpKey k = true := by
    simp only [isUpKey, hk]
    decide
  simp only [userHandler, hsel, hed, h1, h2, h3, Bool.false_eq_true, if_false, if_true]

/-- In navigating mode, the down key clamps the active index upward. -/
lemma down_step (cfg : SnippetConfig) (s : PromptState) (k : KeyEvent) (line : Str)
    (hsel : s.selectingField = none) (hed : s.editingField = none)
    (hk : k.name = ("down".toList)) :
    userHandler cfg s k line =
      { s with activeFieldIndex := (min ((fieldNames cfg).length - 1)
          (s.activeFieldIndex + 1)) } := by
  have h1 : (k.ctrl && (k.name == ("s".toList))) = false := by
    apply ctrlS_false_of_name_ne
    rw [hk]
    decide
  have h2 : isEnterKey k = false := by
    apply isEnterKey_false_of_name <;> (rw [hk] ; decide)
  have h3 : isUpKey k = false := by
    simp only [isUpKey, hk]
    decide
  have h4 : isDownKey k = true := by
    simp only [isDownKey, hk]
    decide
  simp only [userHandler, hsel, hed, h1, h2, h3, h4, Bool.false_eq_true, if_false, if_true]

/-- In navigating mode, Tab advances the active index cyclically. -/
lemma tab_step (cfg : SnippetConfig) (s : PromptState) (k : KeyEvent) (line : Str)
    (hsel : s.selectingField = none) (hed : s.editingField = none)
    (hk : k.name = ("tab".toList)) :
    userHandler cfg s k line =
      { s with activeFieldIndex := (s.activeFieldIndex + 1) % (fieldNames cfg).length } := by
  have h1 : (k.ctrl && (k.name == ("s".toList))) = false := by
    apply ctrlS_false_of_name_ne
    rw [hk]
    decide
  have h2 : isEnterKey k = false := by
    apply isEnterKey_false_of_name <;> (rw [hk] ; decide)
  have h3 : isUpKey k = false := by
    simp only [isUpKey, hk]
    decide
  have h4 : isDownKey k = false := by
    simp only [isDownKey, hk]
    decide
  have h5 : (k.name == ("tab".toList)) = true := by
    rw [hk]
    decide
  simp only [userHandler, hsel, hed, h1, h2, h3, h4, h5, Bool.false_eq_true, if_false, if_true]

/-- In editing mode, Escape discards the edit buffer and returns to
navigating without touching the value map. -/
lemma edit_escape_step (cfg : SnippetConfig) (s : PromptState) (k : KeyEvent) (line : Str)
    (f : Str) (hsel : s.selectingField = none) (hed : s.editingField = some f)
    (hk : k.name = ("escape".toList)) :
    userHandler cfg s k line =
      { s with editingField := none, fieldInput := [], cursorPosition := 0 } := by
  have h1 : isEnterKey k = false := by
    apply isEnterKey_false_of_name <;> (rw [hk] ; decide)
  have h2 : (k.name == ("escape".toList)) = true := by
    rw [hk]
    decide
  simp only [userHandler, hsel, hed, h1, h2, Bool.false_eq_true, if_false, if_true]

/-- In editing mode, a key other than Enter and Escape is delegated to
the readline buffer: only the edit buffer and cursor change. -/
lemma edit_other_step (cfg : SnippetConfig) (s : PromptState) (k : KeyEvent) (line : Str)
    (f : Str) (hsel : s.selectingField = none) (hed : s.editingField = some f)
    (h1 : isEnterKey k = false) (h2 : k.name ≠ ("escape".toList)) :
    userHandler cfg s k line =
      { s with fieldInput := line, cursorPosition := line.length } := by
  have h3 : (k.name == ("escape".toList)) = false := by
    simp only [beq_eq_false_iff_ne, ne_eq]
    exact h2
  simp only [userHandler, hsel, hed, h1, h3, Bool.false_eq_true, if_false]

/-! ## Invariants of the state machine -/

/-- One step preserves the invariant that `selectingField`, when set,
names a field passing the `isSelectField` guard. -/
lemma selecting_inv_step (cfg : SnippetConfig) (s : PromptState) (k : KeyEvent) (line : Str)
    (hinv : ∀ g, s.selectingField = some g → isSelectField cfg g = true) :
    ∀ g, (userHandler cfg s k line).selectingField = some g → isSelectField cfg g = true := by
  intro g
  cases hsel : s.selectingField with
  | some sf =>
    have hsf : isSelectField cfg sf = true := hinv sf hsel
    simp only [userHandler, hsel]
    (repeat' split) <;> intro hg <;> simp [hsel] at hg <;> (try subst hg) <;> assumption
  | none =>
    cases hed : s.editingField with
    | some ef =>
      simp only [userHandler, hsel, hed]
      (repeat' split) <;> intro hg <;> simp [hsel] at hg
    | none =>
      simp only [userHandler, hsel, hed]
      (repeat' split) <;> intro hg <;> simp [hsel] at hg <;> (try subst hg) <;>
        try assumption

/-- The select-mode invariant is preserved along any run: whenever
`selectingField` is set, the named field passes the `isSelectField`
guard. -/
lemma selecting_inv_run (cfg : SnippetConfig) :
    ∀ (evs : List (KeyEvent × Str)) (s : PromptState),
      (∀ g, s.selectingField = some g → isSelectField cfg g = true) →
      ∀ g, (runFrom cfg s evs).selectingField = some g → isSelectField cfg g = true := by
  intro evs
  induction evs with
  | nil => intro s h; exact h
  | cons e rest ih =>
    intro s h
    have hstep : runFrom cfg s (e :: rest) = runFrom cfg (userHandler cfg s e.1 e.2) rest := rfl
    rw [hstep]
    exact ih _ (selecting_inv_step cfg s e.1 e.2 h)

/-- Iterating Tab from a valid index adds the press count modulo the
field count. -/
lemma tab_iterate (cfg : SnippetConfig) (k : KeyEvent) (hk : k.name = ("tab".toList)) :
    ∀ (cnt : Nat) (s : PromptState), s.selectingField = none → s.editingField = none →
      s.activeFieldIndex < (fieldNames cfg).length →
      (runFrom cfg s (List.replicate cnt (k, []))).activeFieldIndex
        = (s.activeFieldIndex + cnt) % (fieldNames cfg).length := by
  intro cnt
  induction cnt with
  | zero =>
    intro s hsel hed ha
    simp [runFrom, Nat.mod_eq_of_lt ha]
  | succ m ih =>
    intro s hsel hed ha
    have hn : 0 < (fieldNames cfg).length := Nat.lt_of_le_of_lt (Nat.zero_le _) ha
    rw [List.replicate_succ]
    have hstep : runFrom cfg s ((k, []) :: List.replicate m (k, []))
        = runFrom cfg (userHandler cfg s k []) (List.replicate m (k, [])) := rfl
    rw [hstep, tab_step cfg s k [] hsel hed hk,
      ih { s with activeFieldIndex := (s.activeFieldIndex + 1) % (fieldNames cfg).length }
        hsel hed (Nat.mod_lt _ hn),
      Nat.mod_add_mod]
    have harith : s.activeFieldIndex + 1 + m = s.activeFieldIndex + (m + 1) := by omega
    rw [harith]

/-- Any run of up/down presses from a navigating state with a valid
active index stays navigating with a valid active index. -/
lemma updown_run (cfg : SnippetConfig) :
    ∀ (evs : List (KeyEvent × Str)) (s : PromptState),
      (∀ e ∈ evs, isUpKey e.1 = true ∨ isDownKey e.1 = true) →
      s.selectingField = none → s.editingField = none →
      s.activeFieldIndex < (fieldNames cfg).length →
      (runFrom cfg s evs).activeFieldIndex < (fieldNames cfg).length ∧
      (runFrom cfg s evs).selectingField = none ∧
      (runFrom cfg s evs).editingField = none := by
  intro evs
  induction evs with
  | nil =>
    intro s _ hsel hed ha
    exact ⟨ha, hsel, hed⟩
  | cons e rest ih =>
    intro s hall hsel hed ha
    have hn : 0 < (fieldNames cfg).length := Nat.lt_of_le_of_lt (Nat.zero_le _) ha
    have hstep : runFrom cfg s (e :: rest) = runFrom cfg (userHandler cfg s e.1 e.2) rest := rfl
    rw [hstep]
    have hrest : ∀ x ∈ rest, isUpKey x.1 = true ∨ isDownKey x.1 = true :=
      fun x hx => hall x (List.mem_cons_of_mem _ hx)
    rcases hall e (List.mem_cons_self _ _) with hu | hd
    · have hname : e.1.name = ("up".toList) := by
        simpa only [isUpKey, beq_iff_eq] using hu
      rw [up_step cfg s e.1 e.2 hsel hed hname]
      exact ih _ hrest hsel hed (Nat.lt_of_le_of_lt (Nat.sub_le _ _) ha)
    · have hname : e.1.name = ("down".toList) := by
        simpa only [isDownKey, beq_iff_eq] using hd
      rw [down_step cfg s e.1 e.2 hsel hed hname]
      exact ih _ hrest hsel hed
        (Nat.lt_of_le_of_lt (Nat.min_le_left _ _) (Nat.sub_lt hn (by decide)))

/-- Any run of keys that are neither Enter nor Escape keeps the prompt in
editing mode on the same field and never touches the value map. -/
lemma edit_keys_run (cfg : SnippetConfig) (f : Str) :
    ∀ (ks : List (KeyEvent × Str)) (s : PromptState),
      (∀ e ∈ ks, isEnterKey e.1 = false ∧ e.1.name ≠ ("escape".toList)) →
      s.selectingField = none → s.editingField = some f →
      (runFrom cfg s ks).values = s.values ∧
      (runFrom cfg s ks).selectingField = none ∧
      (runFrom cfg s ks).editingField = some f := by
  intro ks
  induction ks with
  | nil =>
    intro s _ hsel hed
    exact ⟨rfl, hsel, hed⟩
  | cons e rest ih =>
    intro s hall hsel hed
    have hstep : runFrom cfg s (e :: rest) = runFrom cfg (userHandler cfg s e.1 e.2) rest := rfl
    rw [hstep]
    obtain ⟨h1, h2⟩ := hall e (List.mem_cons_self _ _)
    rw [edit_other_step cfg s e.1 e.2 f hsel hed h1 h2]
    exact ih _ (fun x hx => hall x (List.mem_cons_of_mem _ hx)) hsel hed

/-- A key whose name is not the submit letter never changes the error
message, in any mode. -/
lemma errorMsg_unchanged (cfg : SnippetConfig) (s : PromptState) (k : KeyEvent) (line : Str)
    (h : k.name ≠ ("s".toList)) :
    (userHandler cfg s k line).errorMsg = s.errorMsg := by
  have hb := ctrlS_false_of_name_ne h
  cases hsel : s.selectingField with
  | some sf =>
    simp only [userHandler, hsel]
    (repeat' split) <;> rfl
  | none =>
    cases hed : s.editingField with
    | some ef =>
      simp only [userHandler, hsel, hed]
      (repeat' split) <;> rfl
    | none =>
      simp only [userHandler, hsel, hed, hb, Bool.false_eq_true, if_false]
      (repeat' split) <;> rfl

/-! ## The substitution step versus plain literal replacement -/

/-- A replacement string without a dollar sign is expanded to itself. -/
lemma processRepl_no_dollar (matched before after : Str) :
    ∀ repl, dollarChar ∉ repl → processRepl matched before after repl = repl := by
  intro repl
  induction repl with
  | nil => intro _; rfl
  | cons c rest ih =>
    intro h
    have hc : ¬c = dollarChar := fun hc => h (hc ▸ List.mem_cons_self c rest)
    have hrest : dollarChar ∉ rest := fun hm => h (List.mem_cons_of_mem _ hm)
    cases rest with
    | nil => rfl
    | cons d rest2 =>
      simp only [processRepl, if_neg hc]
      rw [ih hrest]

/-- When the replacement has no dollar sign, the source's substitution
step coincides with plain global literal replacement. -/
lemma jsReplaceAux_no_dollar (pat repl : Str) (hrep : dollarChar ∉ repl) :
    ∀ (fuel : Nat) (rb s : Str),
      jsReplaceAux pat repl fuel rb s = literalReplaceAllAux pat repl fuel s := by
  intro fuel
  induction fuel with
  | zero => intro rb s; rfl
  | succ m ih =>
    intro rb s
    cases s with
    | nil => rfl
    | cons c rest =>
      simp only [jsReplaceAux, literalReplaceAllAux]
      split_ifs with h
      · rw [processRepl_no_dollar _ _ _ _ hrep, ih]
      · rw [ih]

/-- Entry-point version of `jsReplaceAux_no_dollar`. -/
lemma jsReplace_eq_literal (s pat repl : Str) (hrep : dollarChar ∉ repl) :
    jsReplace s pat repl = literalReplaceAll s pat repl :=
  jsReplaceAux_no_dollar pat repl hrep s.length [] s

/-- The whole render pass coincides with the sequential exact-literal
substitution when no display fragment contains a dollar sign. -/
lemma render_foldl_eq_literal (cfg : SnippetConfig) (theme : ThemeStyle) (s : PromptState) :
    ∀ (l : List (Nat × Str)) (acc : Str),
      (∀ p ∈ l, dollarChar ∉ displayValueFor cfg theme s p.2 p.1) →
      l.foldl (fun rendered p =>
          jsReplace rendered (placeholderToken p.2) (displayValueFor cfg theme s p.2 p.1)) acc
        = l.foldl (fun rendered p =>
            literalReplaceAll rendered (placeholderToken p.2)
              (displayValueFor cfg theme s p.2 p.1)) acc := by
  intro l
  induction l with
  | nil => intro acc _; rfl
  | cons p rest ih =>
    intro acc h
    rw [List.foldl_cons, List.foldl_cons,
      jsReplace_eq_literal _ _ _ (h p (List.mem_cons_self _ _))]
    exact ih _ (fun q hq => h q (List.mem_cons_of_mem _ hq))

/-! ## Concrete fixtures used by witnesses and counterexamples -/

/-- The enter key. -/
def keyEnter : KeyEvent := { name := ("enter".toList), ctrl := false }

/-- The escape key. -/
def keyEscape : KeyEvent := { name := ("escape".toList), ctrl := false }

/-- The up-arrow key. -/
def keyUp : KeyEvent := { name := ("up".toList), ctrl := false }

/-- The down-arrow key. -/
def keyDown : KeyEvent := { name := ("down".toList), ctrl := false }

/-- The tab key. -/
def keyTab : KeyEvent := { name := ("tab".toList), ctrl := false }

/-- The ctrl+s submit combination. -/
def keyCtrlS : KeyEvent := { name := ("s".toList), ctrl := true }

/-- A plain character key, delegated to the readline buffer while
editing. -/
def keyO : KeyEvent := { name := ("o".toList), ctrl := false }

/-- One text field whose validator always fails with a fixed message. -/
def cfgW1 : SnippetConfig :=
  { message := ("m".toList)
    template := ("Name: \x7b\x7bname\x7d\x7d".toList)
    fields := [(("name".toList), { initial := some ("John".toList) })]
    validate := some (fun _ => .str ("Name is required".toList)) }

/-- One text field `x` whose validator succeeds exactly when `x` holds
the string `ok`. -/
def cfgW2 : SnippetConfig :=
  { message := ("m".toList)
    template := ("X: \x7b\x7bx\x7d\x7d".toList)
    fields := [(("x".toList), {})]
    validate := some (fun vs =>
      if getValue vs ("x".toList) == ("ok".toList) then .bool true
      else .str ("bad".toList)) }

/-- Fail a submit, repair the field by editing it to `ok`, submit again
successfully. -/
def evsW2 : List (KeyEvent × Str) :=
  [(keyCtrlS, []), (keyEnter, []), (keyO, ("ok".toList)), (keyEnter, []), (keyCtrlS, [])]

/-- One select field with three options and a matching initial value. -/
def cfgW3 : SnippetConfig :=
  { message := ("m".toList)
    template := ("Color: \x7b\x7bcolor\x7d\x7d".toList)
    fields := [(("color".toList),
      { initial := some ("green".toList)
        options := some [.bare ("red".toList), .bare ("green".toList),
          .bare ("blue".toList)] })]
    validate := none }

/-- A field misconfigured with an explicitly empty option list. -/
def cfgW4 : SnippetConfig :=
  { message := ("m".toList)
    template := ("E: \x7b\x7be\x7d\x7d".toList)
    fields := [(("e".toList), { options := some [] })]
    validate := none }

/-- Three plain text fields, for tab cycling. -/
def cfgW5 : SnippetConfig :=
  { message := ("m".toList)
    template := ("\x7b\x7ba\x7d\x7d \x7b\x7bb\x7d\x7d \x7b\x7bc\x7d\x7d".toList)
    fields := [(("a".toList), {}), (("b".toList), {}), (("c".toList), {})]
    validate := none }

/-- A field whose name contains a regex metacharacter and whose initial
value is the JS replacement pattern standing for the whole match. -/
def cfgW8 : SnippetConfig :=
  { message := ("m".toList)
    template := ("x \x7b\x7bfield+plus\x7d\x7d y".toList)
    fields := [(("field+plus".toList), { initial := some ("$&".toList) })]
    validate := none }

/-- Same special-character field name with a benign (dollar-free)
value. -/
def cfgW8b : SnippetConfig :=
  { message := ("m".toList)
    template := ("x \x7b\x7bfield+plus\x7d\x7d y".toList)
    fields := [(("field+plus".toList), { initial := some ("v+1".toList) })]
    validate := none }

/-- A validator that returns the empty string. -/
def cfgW9 : SnippetConfig :=
  { message := ("m".toList)
    template := ("N: \x7b\x7bn\x7d\x7d".toList)
    fields := [(("n".toList), {})]
    validate := some (fun _ => .str []) }

/-- Earlier field `a` whose committed value contains the literal
placeholder token of the later field `b`. -/
def cfgW10 : SnippetConfig :=
  { message := ("m".toList)
    template := ("A=\x7b\x7ba\x7d\x7d B=\x7b\x7bb\x7d\x7d".toList)
    fields := [(("a".toList), { initial := some ("<\x7b\x7bb\x7d\x7d>".toList) }),
               (("b".toList), { initial := some ("V".toList) })]
    validate := none }

/-! ## The claims -/

/-- Claim C1: for every value map and optional validation predicate, the
ctrl+s submit branches exactly as: no predicate supplied, or the
predicate returning the boolean true, resolves the prompt with the value
map; the boolean false fails with the generic fallback error text
`Invalid values provided`; a non-empty string fails with that string as
the error message.  On every failure the status returns to idle and the
prompt stays in navigating mode. -/
theorem claim1_submit_branches (cfg : SnippetConfig) (s : PromptState) (k : KeyEvent)
    (line : Str) (hsel : s.selectingField = none) (hed : s.editingField = none)
    (hc : k.ctrl = true) (hn : k.name = ("s".toList)) :
    (cfg.validate = none →
      (userHandler cfg s k line).status = .done ∧
      (userHandler cfg s k line).result = some s.values) ∧
    (∀ v, cfg.validate = some v → v s.values = .bool true →
      (userHandler cfg s k line).status = .done ∧
      (userHandler cfg s k line).result = some s.values) ∧
    (∀ v, cfg.validate = some v → v s.values = .bool false →
      (userHandler cfg s k line).status = .idle ∧
      (userHandler cfg s k line).errorMsg = some invalidValuesMsg ∧
      (userHandler cfg s k line).result = s.result ∧
      (userHandler cfg s k line).selectingField = none ∧
      (userHandler cfg s k line).editingField = none) ∧
    (∀ v m, cfg.validate = some v → v s.values = .str m → m ≠ [] →
      (userHandler cfg s k line).status = .idle ∧
      (userHandler cfg s k line).errorMsg = some m ∧
      (userHandler cfg s k line).result = s.result ∧
      (userHandler cfg s k line).selectingField = none ∧
      (userHandler cfg s k line).editingField = none) := by
  refine ⟨?_, ?_, ?_, ?_⟩
  · intro hv
    have hval : runValidate cfg s.values = .bool true := by simp [runValidate, hv]
    rw [submit_success_step cfg s k line hsel hed hc hn hval]
    exact ⟨rfl, rfl⟩
  · intro v hv hr
    have hval : runValidate cfg s.values = .bool true := by simp [runValidate, hv, hr]
    rw [submit_success_step cfg s k line hsel hed hc hn hval]
    exact ⟨rfl, rfl⟩
  · intro v hv hr
    have hval : runValidate cfg s.values = .bool false := by simp [runValidate, hv, hr]
    have hne2 : runValidate cfg s.values ≠ .bool true := by simp [hval]
    rw [submit_fail_step cfg s k line hsel hed hc hn hne2]
    refine ⟨rfl, ?_, rfl, hsel, hed⟩
    rw [hval]
  · intro v m hv hr _
    have hval : runValidate cfg s.values = .str m := by simp [runValidate, hv, hr]
    have hne2 : runValidate cfg s.values ≠ .bool true := by simp [hval]
    rw [submit_fail_step cfg s k line hsel hed hc hn hne2]
    refine ⟨rfl, ?_, rfl, hsel, hed⟩
    rw [hval]

/-- Witness for C1: on `cfgW1` the validator always returns the string
`Name is required`; ctrl+s from the initial state leaves an idle,
navigating prompt with exactly that error message and no resolution. -/
theorem claim1_witness :
    (userHandler cfgW1 (initialState cfgW1) keyCtrlS []).status = .idle ∧
    (userHandler cfgW1 (initialState cfgW1) keyCtrlS []).errorMsg
      = some ("Name is required".toList) ∧
    (userHandler cfgW1 (initialState cfgW1) keyCtrlS []).result = none := by
  have h := (claim1_submit_branches cfgW1 (initialState cfgW1) keyCtrlS [] rfl rfl rfl
    rfl).2.2.2 (fun _ => .str ("Name is required".toList)) ("Name is required".toList)
    rfl rfl (by decide)
  exact ⟨h.1, h.2.1, h.2.2.1⟩

/-- Claim C2 counterexample: on `cfgW2`, a failed submit sets the error
message `bad`; after repairing the field a second submit succeeds
(status done, prompt resolved) yet the error message is NOT cleared — it
is still `bad`, refuting "cleared on next successful submit attempt". -/
theorem claim2_counterexample :
    (runKeys cfgW2 evsW2).status = .done ∧
    (runKeys cfgW2 evsW2).result = some [(("x".toList), ("ok".toList))] ∧
    (runKeys cfgW2 evsW2).errorMsg = some ("bad".toList) ∧
    ¬(runKeys cfgW2 evsW2).errorMsg = none := by
  refine ⟨by decide, by decide, by decide, by decide⟩

/-- Claim C2 (amended): a successful submit resolves the prompt but
leaves `errorMessage` exactly as it was — it is never cleared — and no
navigation key (Up, Down, Tab) ever changes `errorMessage`, in any
mode. -/
theorem claim2_error_persistence (cfg : SnippetConfig) (s : PromptState) (k : KeyEvent)
    (line : Str) :
    (s.selectingField = none → s.editingField = none → k.ctrl = true →
      k.name = ("s".toList) → runValidate cfg s.values = .bool true →
      (userHandler cfg s k line).errorMsg = s.errorMsg ∧
      (userHandler cfg s k line).status = .done ∧
      (userHandler cfg s k line).result = some s.values) ∧
    ((isUpKey k = true ∨ isDownKey k = true ∨ k.name = ("tab".toList)) →
      (userHandler cfg s k line).errorMsg = s.errorMsg) := by
  constructor
  · intro hsel hed hc hn hval
    rw [submit_success_step cfg s k line hsel hed hc hn hval]
    exact ⟨rfl, rfl, rfl⟩
  · intro hk
    apply errorMsg_unchanged
    rcases hk with h | h | h
    · simp only [isUpKey, beq_iff_eq] at h
      rw [h]
      decide
    · simp only [isDownKey, beq_iff_eq] at h
      rw [h]
      decide
    · rw [h]
      decide

/-- Witness for the amended C2: a Tab press never touches the error
message. -/
theorem claim2_witness :
    (userHandler cfgW1 (initialState cfgW1) keyTab []).errorMsg
      = (initialState cfgW1).errorMsg :=
  (claim2_error_persistence cfgW1 (initialState cfgW1) keyTab []).2
    (Or.inr (Or.inr rfl))

/-- Claim C3: pressing Enter in navigating mode on an active select
field (non-empty option list, non-empty name) enters option-selection
mode, points the selection at the first normalized option whose stored
value equals the field's current value — index 0 when no option
matches — and leaves the value map unchanged. -/
theorem claim3_enter_select (cfg : SnippetConfig) (s : PromptState) (k : KeyEvent)
    (line : Str) (f : Str) (hsel : s.selectingField = none) (hed : s.editingField = none)
    (hk : isEnterKey k = true) (hf : (fieldNames cfg)[s.activeFieldIndex]? = some f)
    (hne : f ≠ []) (hselF : isSelectField cfg f = true) :
    (userHandler cfg s k line).selectingField = some f ∧
    (userHandler cfg s k line).selectedOptionIndex
      = ((normalizeOptions (fieldOptions cfg f)).findIdx?
          (fun opt => opt.value == getValue s.values f)).getD 0 ∧
    (userHandler cfg s k line).values = s.values ∧
    (userHandler cfg s k line).editingField = none := by
  rw [enter_select_step cfg s k line f hsel hed hk hf hne hselF]
  exact ⟨rfl, rfl, rfl, hed⟩

/-- Witness for C3: on `cfgW3` (options red, green, blue; current value
`green`), Enter opens selection at index 1 with the value map intact. -/
theorem claim3_witness :
    (userHandler cfgW3 (initialState cfgW3) keyEnter []).selectingField
      = some ("color".toList) ∧
    (userHandler cfgW3 (initialState cfgW3) keyEnter []).selectedOptionIndex = 1 ∧
    (userHandler cfgW3 (initialState cfgW3) keyEnter []).values
      = (initialState cfgW3).values := by
  have h := claim3_enter_select cfgW3 (initialState cfgW3) keyEnter [] ("color".toList)
    rfl rfl (by decide) (by decide) (by decide) (by decide)
  refine ⟨h.1, ?_, h.2.2.1⟩
  rw [h.2.1]
  decide

/-- Claim C4: a field declared with an empty option list is treated as a
text field: no reachable state (any key sequence from the initial state)
is in option-selection mode for it, and pressing Enter on it (active,
non-empty name, navigating) opens text editing instead. -/
theorem claim4_empty_options_text (cfg : SnippetConfig) (f : Str) (fd : SnippetField)
    (hfd : findField cfg f = some fd) (hopts : fd.options = some []) :
    (∀ evs, ¬(runKeys cfg evs).selectingField = some f) ∧
    (∀ s k line, s.selectingField = none → s.editingField = none → isEnterKey k = true →
      (fieldNames cfg)[s.activeFieldIndex]? = some f → f ≠ [] →
      (userHandler cfg s k line).editingField = some f ∧
      (userHandler cfg s k line).selectingField = none) := by
  have hnotsel : isSelectField cfg f = false := by
    simp [isSelectField, hfd, hopts]
  constructor
  · intro evs hcontra
    have hbad := selecting_inv_run cfg evs (initialState cfg)
      (fun g hg => by simp [initialState] at hg) f hcontra
    rw [hnotsel] at hbad
    cases hbad
  · intro s k line hsel hed hk hf hne
    rw [enter_text_step cfg s k line f hsel hed hk hf hne hnotsel]
    exact ⟨rfl, hsel⟩

/-- Witness for C4: on `cfgW4` (field `e` declared with `options: []`),
no run reaches selection mode on `e`, and Enter opens text editing. -/
theorem claim4_witness :
    (¬(runKeys cfgW4 [(keyEnter, [])]).selectingField = some ("e".toList)) ∧
    (userHandler cfgW4 (initialState cfgW4) keyEnter []).editingField
      = some ("e".toList) := by
  have h := claim4_empty_options_text cfgW4 ("e".toList) { options := some [] }
    (by decide) rfl
  exact ⟨h.1 [(keyEnter, [])],
    (h.2 (initialState cfgW4) keyEnter [] rfl rfl (by decide) (by decide) (by decide)).1⟩

/-- Claim C5: in navigating mode each Tab press sets the active index to
its successor modulo the field count, and from a valid index pressing
Tab exactly fieldCount times returns the active index to its starting
value. -/
theorem claim5_tab_cycle (cfg : SnippetConfig) (s : PromptState) (k : KeyEvent) (line : Str)
    (hsel : s.selectingField = none) (hed : s.editingField = none)
    (hk : k.name = ("tab".toList)) :
    (userHandler cfg s k line).activeFieldIndex
      = (s.activeFieldIndex + 1) % (fieldNames cfg).length ∧
    (s.activeFieldIndex < (fieldNames cfg).length →
      (runFrom cfg s (List.replicate ((fieldNames cfg).length) (k, []))).activeFieldIndex
        = s.activeFieldIndex) := by
  constructor
  · rw [tab_step cfg s k line hsel hed hk]
  · intro ha
    rw [tab_iterate cfg k hk ((fieldNames cfg).length) s hsel hed ha,
      Nat.add_mod_right, Nat.mod_eq_of_lt ha]

/-- Witness for C5: on the three-field `cfgW5`, one Tab moves 0 to 1,
and three Tabs return to 0. -/
theorem claim5_witness :
    (userHandler cfgW5 (initialState cfgW5) keyTab []).activeFieldIndex = 1 ∧
    (runFrom cfgW5 (initialState cfgW5)
      (List.replicate 3 (keyTab, []))).activeFieldIndex = 0 := by
  have h := claim5_tab_cycle cfgW5 (initialState cfgW5) keyTab [] rfl rfl rfl
  constructor
  · rw [h.1]
    decide
  · exact h.2 (by decide)

/-- Claim C6: in navigating mode with at least one field, Up clamps the
active index to its predecessor bounded below by 0, Down clamps it to
its successor bounded above by fieldCount - 1, and along every sequence
of Up/Down presses from a valid index the active index stays inside
`[0, fieldCount - 1]`. -/
theorem claim6_updown_clamped (cfg : SnippetConfig) (s : PromptState) (line : Str) :
    (∀ k, s.selectingField = none → s.editingField = none → k.name = ("up".toList) →
      (userHandler cfg s k line).activeFieldIndex = s.activeFieldIndex - 1) ∧
    (∀ k, s.selectingField = none → s.editingField = none → k.name = ("down".toList) →
      (userHandler cfg s k line).activeFieldIndex
        = min ((fieldNames cfg).length - 1) (s.activeFieldIndex + 1)) ∧
    (∀ evs, (∀ e ∈ evs, isUpKey e.1 = true ∨ isDownKey e.1 = true) →
      s.selectingField = none → s.editingField = none →
      s.activeFieldIndex < (fieldNames cfg).length →
      (runFrom cfg s evs).activeFieldIndex < (fieldNames cfg).length) := by
  refine ⟨?_, ?_, ?_⟩
  · intro k hsel hed hk
    rw [up_step cfg s k line hsel hed hk]
  · intro k hsel hed hk
    rw [down_step cfg s k line hsel hed hk]
  · intro evs hall hsel hed ha
    exact (updown_run cfg evs s hall hsel hed ha).1

/-- Witness for C6: on the three-field `cfgW5`, Up at index 0 stays at
0, Down moves to 1, and a concrete Up/Down run stays below 3. -/
theorem claim6_witness :
    (userHandler cfgW5 (initialState cfgW5) keyUp []).activeFieldIndex = 0 ∧
    (userHandler cfgW5 (initialState cfgW5) keyDown []).activeFieldIndex = 1 ∧
    (runFrom cfgW5 (initialState cfgW5)
      [(keyDown, []), (keyDown, []), (keyDown, []), (keyUp, [])]).activeFieldIndex < 3 := by
  have h := claim6_updown_clamped cfgW5 (initialState cfgW5) []
  refine ⟨?_, ?_, ?_⟩
  · rw [h.1 keyUp rfl rfl rfl]
    decide
  · rw [h.2.1 keyDown rfl rfl rfl]
    decide
  · exact h.2.2 [(keyDown, []), (keyDown, []), (keyDown, []), (keyUp, [])]
      (by decide) rfl rfl (by decide)

/-- Claim C7: entering text editing with Enter, sending any keys that
are neither Enter nor Escape (delegated to the line buffer), then
pressing Escape returns to navigating mode with the whole value map —
the edited field and every other field — equal to its pre-edit state. -/
theorem claim7_escape_frame (cfg : SnippetConfig) (s : PromptState) (f : Str)
    (kE : KeyEvent) (lineE : Str) (ks : List (KeyEvent × Str)) (kEsc : KeyEvent)
    (lineEsc : Str) (hsel : s.selectingField = none) (hed : s.editingField = none)
    (hkE : isEnterKey kE = true) (hf : (fieldNames cfg)[s.activeFieldIndex]? = some f)
    (hne : f ≠ []) (hnotsel : isSelectField cfg f = false)
    (hks : ∀ e ∈ ks, isEnterKey e.1 = false ∧ e.1.name ≠ ("escape".toList))
    (hkEsc : kEsc.name = ("escape".toList)) :
    (userHandler cfg (runFrom cfg (userHandler cfg s kE lineE) ks) kEsc lineEsc).values
      = s.values ∧
    (userHandler cfg (runFrom cfg (userHandler cfg s kE lineE) ks) kEsc
      lineEsc).editingField = none ∧
    (userHandler cfg (runFrom cfg (userHandler cfg s kE lineE) ks) kEsc
      lineEsc).selectingField = none := by
  rw [enter_text_step cfg s kE lineE f hsel hed hkE hf hne hnotsel]
  obtain ⟨hv, hs, he⟩ := edit_keys_run cfg f ks
    { s with editingField := some f
             fieldInput := getValue s.values f
             cursorPosition := (getValue s.values f).length } hks hsel rfl
  rw [edit_escape_step cfg _ kEsc lineEsc f hs he hkEsc]
  exact ⟨hv, rfl, hs⟩

/-- Witness for C7: on `cfgW2`, enter edit on `x`, type (buffer `ok`),
then Escape: the value map still holds the initial empty value. -/
theorem claim7_witness :
    (userHandler cfgW2 (runFrom cfgW2 (userHandler cfgW2 (initialState cfgW2) keyEnter [])
      [(keyO, ("ok".toList))]) keyEscape []).values = (initialState cfgW2).values ∧
    (userHandler cfgW2 (runFrom cfgW2 (userHandler cfgW2 (initialState cfgW2) keyEnter [])
      [(keyO, ("ok".toList))]) keyEscape []).editingField = none := by
  have h := claim7_escape_frame cfgW2 (initialState cfgW2) ("x".toList) keyEnter []
    [(keyO, ("ok".toList))] keyEscape [] rfl rfl (by decide) (by decide) (by decide)
    (by decide) (by decide) rfl
  exact ⟨h.1, h.2.1⟩

/-- Claim C8 counterexample: on `cfgW8` the active field `field+plus`
has the committed value consisting of a dollar sign and an ampersand.
Its display fragment (inverse-video wrap of that value) contains the JS
replacement pattern for the whole match, so the render pass reinserts
the matched placeholder token instead of the fragment: the result
differs from the exact literal substitution the claim asserts, even
though the field name's special characters are matched literally. -/
theorem claim8_counterexample :
    ¬(renderSnippet cfgW8 snippetTheme (initialState cfgW8)
        = literalReplaceAll cfgW8.template (placeholderToken ("field+plus".toList))
            (displayValueFor cfgW8 snippetTheme (initialState cfgW8)
              ("field+plus".toList) 0)) ∧
    renderSnippet cfgW8 snippetTheme (initialState cfgW8)
      = ("x \x1b[7m\x7b\x7bfield+plus\x7d\x7d\x1b[27m y".toList) := by
  refine ⟨by decide, by decide⟩

/-- Claim C8 (amended): the substitution pattern built from a field name
matches exactly the literal placeholder token (the name's special
characters are escaped), and, provided no display fragment contains a
dollar sign, one render pass equals the sequential exact literal
replacement of every occurrence of each field's full placeholder token;
a fragment containing a dollar sign instead undergoes JS
replacement-pattern expansion. -/
theorem claim8_escaped_literal_subst (cfg : SnippetConfig) (theme : ThemeStyle)
    (s : PromptState)
    (hnd : ∀ p ∈ (fieldNames cfg).enum, dollarChar ∉ displayValueFor cfg theme s p.2 p.1) :
    renderSnippet cfg theme s
      = ((fieldNames cfg).enum).foldl
          (fun rendered p =>
            literalReplaceAll rendered (placeholderToken p.2)
              (displayValueFor cfg theme s p.2 p.1))
          cfg.template := by
  rw [renderSnippet]
  exact render_foldl_eq_literal cfg theme s ((fieldNames cfg).enum) cfg.template hnd

/-- Witness for the amended C8: on `cfgW8b` (name `field+plus`, benign
value `v+1`) the render pass is the exact literal substitution. -/
theorem claim8_witness :
    renderSnippet cfgW8b snippetTheme (initialState cfgW8b)
      = ((fieldNames cfgW8b).enum).foldl
          (fun rendered p =>
            literalReplaceAll rendered (placeholderToken p.2)
              (displayValueFor cfgW8b snippetTheme (initialState cfgW8b) p.2 p.1))
          cfgW8b.template :=
  claim8_escaped_literal_subst cfgW8b snippetTheme (initialState cfgW8b) (by decide)

/-- Claim C9: a validator returning the empty string does not resolve
the prompt (only the exact boolean true does): the submit fails, the
status returns to idle, the error message is set to the empty string,
and the rendered error component is empty — the error line is shown
only for a non-empty error message. -/
theorem claim9_empty_string_error (cfg : SnippetConfig) (s : PromptState) (k : KeyEvent)
    (line : Str) (v : ValueMap → ValidationResult)
    (hsel : s.selectingField = none) (hed : s.editingField = none)
    (hc : k.ctrl = true) (hn : k.name = ("s".toList))
    (hv : cfg.validate = some v) (hres : v s.values = .str []) :
    (userHandler cfg s k line).result = s.result ∧
    (userHandler cfg s k line).status = .idle ∧
    (userHandler cfg s k line).errorMsg = some [] ∧
    ∀ styleError : Str → Str,
      errorComponent styleError ((userHandler cfg s k line).errorMsg) = [] := by
  have hval : runValidate cfg s.values = .str [] := by simp [runValidate, hv, hres]
  have hne2 : runValidate cfg s.values ≠ .bool true := by simp [hval]
  rw [submit_fail_step cfg s k line hsel hed hc hn hne2]
  refine ⟨rfl, rfl, ?_, ?_⟩
  · rw [hval]
  · intro styleError
    rw [hval]
    rfl

/-- Witness for C9: on `cfgW9` the validator returns the empty string;
ctrl+s leaves an unresolved idle prompt with `errorMsg` the empty
string and an empty error component. -/
theorem claim9_witness :
    (userHandler cfgW9 (initialState cfgW9) keyCtrlS []).result = none ∧
    (userHandler cfgW9 (initialState cfgW9) keyCtrlS []).status = .idle ∧
    (userHandler cfgW9 (initialState cfgW9) keyCtrlS []).errorMsg = some [] ∧
    errorComponent (fun t => t) ((userHandler cfgW9 (initialState cfgW9) keyCtrlS
      []).errorMsg) = [] := by
  have h := claim9_empty_string_error cfgW9 (initialState cfgW9) keyCtrlS []
    (fun _ => .str []) rfl rfl rfl rfl rfl rfl
  exact ⟨h.1, h.2.1, h.2.2.1, h.2.2.2 (fun t => t)⟩

/-- Claim C10: substitution is sequential over the partially rendered
string in declaration order: on `cfgW10` the earlier field `a` holds
the literal placeholder token of the later field `b` in its committed
value, and one render pass substitutes `b`'s display fragment (the
plain value `V`) inside `a`'s already-substituted fragment as well —
the output shows `V` both inside the inverse-video fragment of `a` and
at `b`'s own placeholder. -/
theorem claim10_sequential_substitution :
    renderSnippet cfgW10 snippetTheme (initialState cfgW10)
      = ("A=\x1b[7m<V>\x1b[27m B=V".toList) := by
  decide

end Snippet
